import Mathlib

/-!
Verification of the workout-tracker data core: name normalization
(`_norm_name` in database.py), the data-access layer (`WorkoutDatabase`),
the Streamlit form handlers that enforce the routine/exercise invariants,
the session-logging fan-out, and the history/statistics aggregators in
app.py.  Strings are modelled as lists of code points (`PyStr`), storage
as an explicit state record, and storage failures as explicit boolean
oracles standing for the raise/no-raise outcome of each supabase call.
-/

/-- A Python string, modelled as its list of code points. -/
abbrev PyStr := List Nat

/-- Code points of a Lean string literal, for concrete test inputs. -/
def pystr (s : String) : PyStr := s.data.map Char.toNat

/-- Python str.split() whitespace class (ASCII part): space, \t, \n, \r, \v, \f. -/
def pyIsSpace (c : Nat) : Bool :=
  c == 32 || c == 9 || c == 10 || c == 13 || c == 11 || c == 12

/-- Python str.lower() on one code point (ASCII letters). -/
def pyLowerChar (c : Nat) : Nat := if 65 ≤ c ∧ c ≤ 90 then c + 32 else c

/-- Python str.lower() over a whole string. -/
def pyLower (s : PyStr) : PyStr := s.map pyLowerChar

/-- Python str.strip(): drop leading and trailing whitespace. -/
def pyStrip (s : PyStr) : PyStr :=
  ((s.dropWhile pyIsSpace).reverse.dropWhile pyIsSpace).reverse

/-- Helper for `pySplit`: accumulates the current token reversed. -/
def pySplitAux : List Nat → List Nat → List (List Nat)
  | [], acc => if acc.isEmpty then [] else [acc.reverse]
  | c :: cs, acc =>
    if pyIsSpace c then
      if acc.isEmpty then pySplitAux cs [] else acc.reverse :: pySplitAux cs []
    else pySplitAux cs (c :: acc)

/-- Python str.split() with no argument: split on whitespace runs, no empty tokens. -/
def pySplit (s : PyStr) : List (List Nat) := pySplitAux s []

/-- Python " ".join(tokens). -/
def pyJoinSpace : List (List Nat) → PyStr
  | [] => []
  | [t] => t
  | t :: u :: ts => t ++ 32 :: pyJoinSpace (u :: ts)

/-- database.py `_norm_name`: `" ".join((s or "").strip().split()).lower()`. -/
def pyNormName (s : PyStr) : PyStr := pyLower (pyJoinSpace (pySplit (pyStrip s)))

example : pyNormName (pystr "Bench   Press") = pystr "bench press" := by decide
example : pyNormName (pystr "  a  B\tc ") = pystr "a b c" := by decide

/-! ## Data model: the three supabase tables (database.py create_tables). -/

/-- A row of the `routines` table. -/
structure Routine where
  id : Nat
  user_id : PyStr
  routine_name : PyStr
  day_name : PyStr
  description : PyStr
deriving DecidableEq

/-- A row of the `routine_exercises` table. -/
structure RoutineExercise where
  id : Nat
  routine_id : Nat
  exercise_name : PyStr
  target_muscle : PyStr
  sets : Int
  order_num : Int
deriving DecidableEq

/-- A row of the `workouts` table.  `date`, `reps` and `weight` are `Option`
so that malformed/legacy rows (null fields) can be talked about; rows written
by `add_workout` always carry `some`. -/
structure Workout where
  id : Nat
  user_id : PyStr
  date : Option PyStr
  routine_id : Option Nat
  routine_exercise_id : Option Nat
  exercise_name : PyStr
  target_muscle : PyStr
  sets : Int
  reps : Option Int
  weight : Option Rat
  notes : PyStr
  effort_level : PyStr
deriving DecidableEq

/-- The storage collaborator's state: the three tables plus the next
storage-assigned serial id. -/
structure DBState where
  routines : List Routine
  routine_exercises : List RoutineExercise
  workouts : List Workout
  next_id : Nat
deriving DecidableEq

/-! ## Data Access Layer (class WorkoutDatabase).

Each method wraps its supabase calls in try/except; a boolean oracle
argument (`ok`, `selOk`, `insOk`) stands for whether the underlying
storage call succeeds or raises.  The except-branch of the source is the
`false` branch here: report and return the failure sentinel, state
unchanged. -/

/-- Python string ≤ (lexicographic by code point). -/
def pyStrLe : PyStr → PyStr → Bool
  | [], _ => true
  | _ :: _, [] => false
  | a :: s, b :: t => if a < b then true else if b < a then false else pyStrLe s t

/-- Ordering relation used for `.order(column)` ascending sorts. -/
def pyStrLeRel (a b : PyStr) : Prop := pyStrLe a b = true

/-- Ordering relation used for `.order(column, desc=True)` sorts. -/
def pyStrGeRel (a b : PyStr) : Prop := pyStrLe b a = true

instance (a b : PyStr) : Decidable (pyStrLeRel a b) := by
  unfold pyStrLeRel; infer_instance

instance (a b : PyStr) : Decidable (pyStrGeRel a b) := by
  unfold pyStrGeRel; infer_instance

/-- WorkoutDatabase.create_routine: insert with normalized routine_name,
return the new id; on storage failure return None. -/
def create_routine (st : DBState) (ok : Bool) (user_id routine_name day_name description : PyStr) :
    DBState × Option Nat :=
  if ok then
    (⟨st.routines ++ [⟨st.next_id, user_id, pyNormName routine_name, day_name, description⟩],
      st.routine_exercises, st.workouts, st.next_id + 1⟩, some st.next_id)
  else (st, none)

/-- WorkoutDatabase.get_user_routines: rows of the user ordered by day_name;
empty list on storage failure. -/
def get_user_routines (st : DBState) (ok : Bool) (user_id : PyStr) : List Routine :=
  if ok then
    List.insertionSort (fun r1 r2 => pyStrLeRel r1.day_name r2.day_name)
      (st.routines.filter (fun r => r.user_id == user_id))
  else []

/-- WorkoutDatabase.add_routine_exercise: normalize the name, return the id
of an existing row with the same normalized key, else insert.  The source's
reps, weight, notes and effort_level parameters are accepted but never
stored (the data dict has no such columns), so they are omitted here.
`selOk` and `insOk` are the outcomes of the select and the insert storage
calls (a raise in either is caught and yields None). -/
def add_routine_exercise (st : DBState) (selOk insOk : Bool) (routine_id : Nat)
    (exercise_name target_muscle : PyStr) (sets order_num : Int) : DBState × Option Nat :=
  if selOk then
    match st.routine_exercises.filter
        (fun e => e.routine_id == routine_id && e.exercise_name == pyNormName exercise_name) with
    | e :: _ => (st, some e.id)
    | [] =>
      if insOk then
        (⟨st.routines,
          st.routine_exercises ++
            [⟨st.next_id, routine_id, pyNormName exercise_name, target_muscle, sets, order_num⟩],
          st.workouts, st.next_id + 1⟩, some st.next_id)
      else (st, none)
  else (st, none)

/-- WorkoutDatabase.get_routine_exercises: rows of the routine ordered by
order_num; empty list on storage failure. -/
def get_routine_exercises (st : DBState) (ok : Bool) (routine_id : Nat) : List RoutineExercise :=
  if ok then
    List.insertionSort (fun e1 e2 => e1.order_num ≤ e2.order_num)
      (st.routine_exercises.filter (fun e => e.routine_id == routine_id))
  else []

/-- WorkoutDatabase.delete_routine: delete the routine; the FK declared in
create_tables cascades to its routine_exercises and sets referencing
workout columns to null.  Returns False on storage failure. -/
def delete_routine (st : DBState) (ok : Bool) (routine_id : Nat) : DBState × Bool :=
  if ok then
    (⟨st.routines.filter (fun r => r.id != routine_id),
      st.routine_exercises.filter (fun e => e.routine_id != routine_id),
      st.workouts.map (fun w =>
        if w.routine_id == some routine_id then
          ⟨w.id, w.user_id, w.date, none, w.routine_exercise_id, w.exercise_name,
           w.target_muscle, w.sets, w.reps, w.weight, w.notes, w.effort_level⟩
        else w),
      st.next_id⟩, true)
  else (st, false)

/-- WorkoutDatabase.add_workout: insert one row stamped with the current
time (`now`) and the normalized exercise name; True on success, False when
the storage call raises. -/
def add_workout (st : DBState) (ok : Bool) (now : PyStr)
    (user_id exercise_name target_muscle : PyStr) (sets reps : Int) (weight : Rat)
    (notes effort_level : PyStr) (routine_id routine_exercise_id : Option Nat) :
    DBState × Bool :=
  if ok then
    (⟨st.routines, st.routine_exercises,
      st.workouts ++
        [⟨st.next_id, user_id, some now, routine_id, routine_exercise_id,
          pyNormName exercise_name, target_muscle, sets, some reps, some weight,
          notes, effort_level⟩],
      st.next_id + 1⟩, true)
  else (st, false)

/-- WorkoutDatabase.get_user_workouts: the user's rows, most recent date
first, truncated to `limit`; empty list on storage failure. -/
def get_user_workouts (st : DBState) (ok : Bool) (user_id : PyStr) (limit : Nat) : List Workout :=
  if ok then
    (List.insertionSort
        (fun w1 w2 => pyStrGeRel (w1.date.getD []) (w2.date.getD []))
        (st.workouts.filter (fun w => w.user_id == user_id))).take limit
  else []

/-- WorkoutDatabase.get_workouts_by_muscle. -/
def get_workouts_by_muscle (st : DBState) (ok : Bool) (user_id muscle : PyStr) : List Workout :=
  if ok then
    List.insertionSort
      (fun w1 w2 => pyStrGeRel (w1.date.getD []) (w2.date.getD []))
      (st.workouts.filter (fun w => w.user_id == user_id && w.target_muscle == muscle))
  else []

/-- WorkoutDatabase.get_workouts_by_exercise (the lookup key is normalized). -/
def get_workouts_by_exercise (st : DBState) (ok : Bool) (user_id exercise : PyStr) : List Workout :=
  if ok then
    List.insertionSort
      (fun w1 w2 => pyStrGeRel (w1.date.getD []) (w2.date.getD []))
      (st.workouts.filter
        (fun w => w.user_id == user_id && w.exercise_name == pyNormName exercise))
  else []

/-- The updatable columns passed to update_workout as a dict. -/
structure WorkoutUpdates where
  exercise_name : Option PyStr
  reps : Option Int
  weight : Option Rat
  notes : Option PyStr
  effort_level : Option PyStr
deriving DecidableEq

/-- Apply an update dict to one row (exercise_name is normalized first,
mirroring the `if "exercise_name" in updates` branch). -/
def applyWorkoutUpdates (u : WorkoutUpdates) (w : Workout) : Workout :=
  ⟨w.id, w.user_id, w.date, w.routine_id, w.routine_exercise_id,
   (u.exercise_name.map pyNormName).getD w.exercise_name,
   w.target_muscle, w.sets,
   (u.reps.map some).getD w.reps,
   (u.weight.map some).getD w.weight,
   u.notes.getD w.notes,
   u.effort_level.getD w.effort_level⟩

/-- WorkoutDatabase.update_workout: update the matching row; False when the
storage call raises. -/
def update_workout (st : DBState) (ok : Bool) (workout_id : Nat) (u : WorkoutUpdates) :
    DBState × Bool :=
  if ok then
    (⟨st.routines, st.routine_exercises,
      st.workouts.map (fun w => if w.id == workout_id then applyWorkoutUpdates u w else w),
      st.next_id⟩, true)
  else (st, false)

/-- WorkoutDatabase.delete_workout: delete the matching row; False when the
storage call raises. -/
def delete_workout (st : DBState) (ok : Bool) (workout_id : Nat) : DBState × Bool :=
  if ok then
    (⟨st.routines, st.routine_exercises,
      st.workouts.filter (fun w => w.id != workout_id), st.next_id⟩, true)
  else (st, false)

/-! ## Routine/Exercise Manager: the create-routine form handler
(app.py, Add Workout page, create_routine_form submit). -/

/-- Outcome reported by the create-routine submit handler. -/
inductive CreateRoutineResult
  | noSubmit
  | dayAlreadyScheduled
  | created (id : Nat)
  | storageFailed
deriving DecidableEq

/-- app.py: `day_already_has_routine = any(r['day_name'] == day_name for r in routines)`. -/
def day_already_has_routine (routines : List Routine) (day_name : PyStr) : Bool :=
  routines.any (fun r => r.day_name == day_name)

/-- The create-routine submit handler (app.py lines 151-166): guarded by a
non-empty routine name, it checks the routines fetched at render time
(`fetchOk` is that read's storage outcome) for the chosen weekday and only
then calls create_routine (`insOk` its storage outcome). -/
def create_routine_form (st : DBState) (fetchOk insOk : Bool)
    (user routine_name day_name description : PyStr) : DBState × CreateRoutineResult :=
  if routine_name == [] then (st, .noSubmit)
  else
    let routines := get_user_routines st fetchOk user
    if day_already_has_routine routines day_name then (st, .dayAlreadyScheduled)
    else
      match create_routine st insOk user routine_name day_name description with
      | (st1, some rid) => (st1, .created rid)
      | (st1, none) => (st1, .storageFailed)

/-- Invariant: a user has at most one routine per weekday. -/
def RoutineDayInv (st : DBState) : Prop :=
  ∀ r1 ∈ st.routines, ∀ r2 ∈ st.routines,
    r1.user_id = r2.user_id → r1.day_name = r2.day_name → r1 = r2

instance (st : DBState) : Decidable (RoutineDayInv st) := by
  unfold RoutineDayInv; infer_instance

/-! ## Workout Logger: the Log This Workout handler (app.py lines 285-306). -/

/-- One completed set as collected by the form (reps, weight, effort). -/
structure SessionSet where
  reps : Int
  weight : Rat
  effort : PyStr
deriving DecidableEq

/-- One entry of `all_set_details`: an exercise of the selected routine with
its completed sets and notes. -/
structure SessionEntry where
  exercise_name : PyStr
  target_muscle : PyStr
  sets : List SessionSet
  notes : PyStr
  routine_id : Nat
deriving DecidableEq

/-- Inner loop of the handler: one add_workout call per set of one entry,
with sets=1 and no routine_exercise_id.  `ok i` is the storage outcome of
the i-th insert of the whole session; `idx` the running insert index and
`cnt` the running success count. -/
def log_entry_sets (ok : Nat → Bool) (now user : PyStr) (e : SessionEntry) :
    List SessionSet → DBState → Nat → Nat → DBState × Nat × Nat
  | [], st, idx, cnt => (st, idx, cnt)
  | s :: rest, st, idx, cnt =>
    match add_workout st (ok idx) now user e.exercise_name e.target_muscle 1 s.reps s.weight
        e.notes s.effort (some e.routine_id) none with
    | (st1, success) =>
      log_entry_sets ok now user e rest st1 (idx + 1) (if success then cnt + 1 else cnt)

/-- Outer loop of the handler over all entries of `all_set_details`. -/
def log_session_aux (ok : Nat → Bool) (now user : PyStr) :
    List SessionEntry → DBState → Nat → Nat → DBState × Nat × Nat
  | [], st, idx, cnt => (st, idx, cnt)
  | e :: es, st, idx, cnt =>
    match log_entry_sets ok now user e e.sets st idx cnt with
    | (st1, idx1, cnt1) => log_session_aux ok now user es st1 idx1 cnt1

/-- The Log This Workout button handler: fans every set of every entry out
into one add_workout call, then reports
"Logged {total_sets_logged} sets from {len(all_set_details)} exercises".
Returns (new state, total_sets_logged, number of exercises). -/
def log_session (st : DBState) (ok : Nat → Bool) (now user : PyStr)
    (entries : List SessionEntry) : DBState × Nat × Nat :=
  match log_session_aux ok now user entries st 0 0 with
  | (st1, _, cnt) => (st1, cnt, entries.length)

/-- The workout row the i-th insert of the session would persist
(spec-side description of one fan-out row). -/
def sessionRow (now user : PyStr) (e : SessionEntry) (s : SessionSet) (wid : Nat) : Workout :=
  ⟨wid, user, some now, some e.routine_id, none, pyNormName e.exercise_name,
   e.target_muscle, 1, some s.reps, some s.weight, e.notes, s.effort⟩

/-- Spec-side: the session's insert attempts, flattened in handler order —
one (entry, set) pair per add_workout call. -/
def sessionAttempts : List SessionEntry → List (SessionEntry × SessionSet)
  | [] => []
  | e :: es => e.sets.map (fun s => (e, s)) ++ sessionAttempts es

/-- Spec-side: the rows the attempts persist when the insert with global
index `idx + k` succeeds exactly when `ok (idx + k)`; row ids are assigned
from `nid` on, consumed only by successful inserts. -/
def okRows (ok : Nat → Bool) (now user : PyStr) :
    List (SessionEntry × SessionSet) → Nat → Nat → List Workout
  | [], _, _ => []
  | (e, s) :: rest, idx, nid =>
    if ok idx then sessionRow now user e s nid :: okRows ok now user rest (idx + 1) (nid + 1)
    else okRows ok now user rest (idx + 1) nid

/-! ## History Aggregator (app.py View History page, lines 327-345). -/

/-- app.py: `date_str = str(w['date'])[:10]`; `str(None)` is "None". -/
def dayKey (w : Workout) : PyStr :=
  (match w.date with
   | some d => d
   | none => pystr "None").take 10

/-- app.py: `if routine_id:` — Python truthiness on the value of
`w.get('routine_id')` (None and 0 are falsy). -/
def truthyRid (w : Workout) : Bool :=
  match w.routine_id with
  | some n => n != 0
  | none => false

/-- One iteration of the View History loop: append row `w` to
`grouped[routine_id][date_str][exercise_name]` when its routine id is
truthy, else skip it.  `g` is the grouped view built so far, modelled as a
function from the three keys to the bucket list. -/
def hgStep (g : Nat → PyStr → PyStr → List Workout) (w : Workout) :
    Nat → PyStr → PyStr → List Workout :=
  match w.routine_id with
  | some rid =>
    if rid ≠ 0 then
      fun r d e =>
        if r = rid ∧ d = dayKey w ∧ e = w.exercise_name then g r d e ++ [w] else g r d e
    else g
  | none => g

/-- The grouped view `grouped[routine_id][date_str][exercise_name]` built by
the View History loop over all fetched workout rows. -/
def historyGroup (ws : List Workout) : Nat → PyStr → PyStr → List Workout :=
  ws.foldl hgStep (fun _ _ _ => [])

/-- The distinct date keys of one routine's `date_dict` (the set of keys,
dedup order immaterial because the display sorts them). -/
def routineDateKeys (ws : List Workout) (rid : Nat) : List PyStr :=
  ((ws.filter (fun w => truthyRid w && w.routine_id == some rid)).map dayKey).dedup

/-- app.py: `sorted(date_dict.keys(), reverse=True)` — the date buckets of a
routine in the order the page displays them. -/
def displayedDates (ws : List Workout) (rid : Nat) : List PyStr :=
  List.insertionSort pyStrGeRel (routineDateKeys ws rid)

/-! ## Statistics Aggregator (app.py Statistics page, lines 394-406).
pandas semantics: a null field is NaN, an elementwise product with NaN is
NaN, and Series.sum skips NaN. -/

/-- `len(all_workouts)` — the Total Workouts metric. -/
def statTotalWorkouts (ws : List Workout) : Nat := ws.length

/-- `df['sets'].sum()` — the Total Sets metric (`sets` is non-null). -/
def statTotalSets (ws : List Workout) : Int := (ws.map (fun w => w.sets)).sum

/-- One element of `df['sets'] * df['reps']` (NaN when reps is null). -/
def repsTerm (w : Workout) : Option Int :=
  match w.reps with
  | some r => some (w.sets * r)
  | none => none

/-- `(df['sets'] * df['reps']).sum()` — the Total Reps metric. -/
def statTotalReps (ws : List Workout) : Int :=
  ((ws.map repsTerm).filterMap id).sum

/-- One element of `df['sets'] * df['reps'] * df['weight']`. -/
def volumeTerm (w : Workout) : Option Rat :=
  match w.reps, w.weight with
  | some r, some wt => some ((w.sets : Rat) * (r : Rat) * wt)
  | _, _ => none

/-- `(df['sets'] * df['reps'] * df['weight']).sum()` — the Total Volume metric. -/
def statTotalVolume (ws : List Workout) : Rat :=
  ((ws.map volumeTerm).filterMap id).sum

/-- The spec's coercion reading of Total Reps: missing values as zero. -/
def coerceTotalReps (ws : List Workout) : Int :=
  (ws.map (fun w => w.sets * (w.reps.getD 0))).sum

/-- The spec's coercion reading of Total Volume: missing values as zero. -/
def coerceTotalVolume (ws : List Workout) : Rat :=
  (ws.map (fun w => (w.sets : Rat) * ((w.reps.getD 0 : Int) : Rat) * w.weight.getD 0)).sum

/-- The predicate deciding whether the View History loop appends row `w`
to bucket `grouped[r][d][e]`: a truthy routine id matching `r`, the day
string matching `d` and the exercise name matching `e`. -/
def hgMatch (w : Workout) (r : Nat) (d e : PyStr) : Bool :=
  match w.routine_id with
  | some rid => decide (rid ≠ 0 ∧ r = rid ∧ d = dayKey w ∧ e = w.exercise_name)
  | none => false

/-- A concrete stored row with reps = null but a routine id: used to test
the claim that such rows are filtered out of the views. -/
def repsNullRow : Workout :=
  ⟨3, pystr "alice", some (pystr "2024-05-01T09:30:00"), some 1, none,
   pystr "squat", pystr "Legs", 1, none, some 50, pystr "", pystr "Medium"⟩

/-- A second concrete row on the same routine and day, later in the day. -/
def sameDayRow : Workout :=
  ⟨4, pystr "alice", some (pystr "2024-05-01T18:45:00"), some 1, none,
   pystr "squat", pystr "Legs", 1, some 8, some 60, pystr "", pystr "Hard"⟩

/-- The spec's statistics round-trip example rows:
{sets:1, reps:10, weight:20} and {sets:1, reps:8, weight:0}. -/
def statsExampleRows : List Workout :=
  [⟨1, pystr "alice", some (pystr "2024-05-01T10:00:00"), none, none, pystr "bench press",
    pystr "Chest", 1, some 10, some 20, pystr "", pystr "Medium"⟩,
   ⟨2, pystr "alice", some (pystr "2024-05-01T10:05:00"), none, none, pystr "bench press",
    pystr "Chest", 1, some 8, some 0, pystr "", pystr "Medium"⟩]

/-! ## Lemmas about the Name Normalizer. -/

theorem pyLowerChar_idem (c : Nat) : pyLowerChar (pyLowerChar c) = pyLowerChar c := by
  by_cases h : 65 ≤ c ∧ c ≤ 90
  · simp only [pyLowerChar, if_pos h]
    rw [if_neg (by omega)]
  · simp only [pyLowerChar, if_neg h]

theorem pyIsSpace_pyLowerChar (c : Nat) : pyIsSpace (pyLowerChar c) = pyIsSpace c := by
  by_cases h : 65 ≤ c ∧ c ≤ 90
  · simp only [pyLowerChar, if_pos h]
    have h1 : pyIsSpace (c + 32) = false := by simp [pyIsSpace]; omega
    have h2 : pyIsSpace c = false := by simp [pyIsSpace]; omega
    rw [h1, h2]
  · simp only [pyLowerChar, if_neg h]

theorem pyLower_idem (t : List Nat) : pyLower (pyLower t) = pyLower t := by
  simp only [pyLower, List.map_map, Function.comp_def, pyLowerChar_idem]

theorem pySplitAux_nil_acc (acc : List Nat) (ha : acc ≠ []) :
    pySplitAux [] acc = [acc.reverse] := by
  cases acc with
  | nil => exact absurd rfl ha
  | cons a as => simp [pySplitAux]

theorem pySplitAux_space_nilacc (c : Nat) (hc : pyIsSpace c = true) (rest : List Nat) :
    pySplitAux (c :: rest) [] = pySplitAux rest [] := by
  simp [pySplitAux, hc]

theorem pySplitAux_space_cons (c : Nat) (hc : pyIsSpace c = true) (rest acc : List Nat)
    (ha : acc ≠ []) : pySplitAux (c :: rest) acc = acc.reverse :: pySplitAux rest [] := by
  cases acc with
  | nil => exact absurd rfl ha
  | cons a as => simp [pySplitAux, hc]

theorem pySplitAux_nospace_cons (c : Nat) (hc : pyIsSpace c = false) (rest acc : List Nat) :
    pySplitAux (c :: rest) acc = pySplitAux rest (c :: acc) := by
  simp [pySplitAux, hc]

/-- Every token produced by `pySplitAux` from a whitespace-free accumulator
is nonempty and whitespace-free. -/
theorem pySplitAux_tokens (s : List Nat) : ∀ (acc : List Nat),
    (∀ c ∈ acc, pyIsSpace c = false) →
    ∀ t ∈ pySplitAux s acc, t ≠ [] ∧ ∀ c ∈ t, pyIsSpace c = false := by
  induction s with
  | nil =>
    intro acc hacc t ht
    cases acc with
    | nil => simp [pySplitAux] at ht
    | cons a as =>
      rw [pySplitAux_nil_acc (a :: as) (by simp)] at ht
      rw [List.mem_singleton] at ht
      subst ht
      exact ⟨by simp, fun x hx => hacc x (List.mem_reverse.mp hx)⟩
  | cons c cs ih =>
    intro acc hacc t ht
    by_cases hc : pyIsSpace c = true
    · cases acc with
      | nil =>
        rw [pySplitAux_space_nilacc c hc cs] at ht
        exact ih [] (by simp) t ht
      | cons a as =>
        rw [pySplitAux_space_cons c hc cs (a :: as) (by simp)] at ht
        rcases List.mem_cons.mp ht with ht | ht
        · subst ht
          exact ⟨by simp, fun x hx => hacc x (List.mem_reverse.mp hx)⟩
        · exact ih [] (by simp) t ht
    · have hc' : pyIsSpace c = false := by simpa using hc
      rw [pySplitAux_nospace_cons c hc' cs acc] at ht
      refine ih (c :: acc) ?_ t ht
      intro x hx
      rcases List.mem_cons.mp hx with hx | hx
      · subst hx; exact hc'
      · exact hacc x hx

/-- Every token of `pySplit` is nonempty and whitespace-free. -/
theorem pySplit_tokens (s : List Nat) :
    ∀ t ∈ pySplit s, t ≠ [] ∧ ∀ c ∈ t, pyIsSpace c = false :=
  pySplitAux_tokens s [] (by simp)

/-- Scanning a whitespace-free chunk just extends the accumulator. -/
theorem pySplitAux_append_nospace (u : List Nat) : ∀ (l acc : List Nat),
    (∀ c ∈ u, pyIsSpace c = false) →
    pySplitAux (u ++ l) acc = pySplitAux l (u.reverse ++ acc) := by
  induction u with
  | nil => simp
  | cons c cs ih =>
    intro l acc h
    have hc : pyIsSpace c = false := h c (by simp)
    rw [List.cons_append, pySplitAux_nospace_cons c hc (cs ++ l) acc]
    rw [ih l (c :: acc) (fun x hx => h x (by simp [hx]))]
    simp

/-- Splitting the space-joined tokens recovers the tokens. -/
theorem pySplit_pyJoinSpace (ts : List (List Nat))
    (h : ∀ t ∈ ts, t ≠ [] ∧ ∀ c ∈ t, pyIsSpace c = false) :
    pySplit (pyJoinSpace ts) = ts := by
  unfold pySplit
  induction ts with
  | nil => simp [pyJoinSpace, pySplitAux]
  | cons t ts ih =>
    obtain ⟨hne, hns⟩ := h t (by simp)
    cases ts with
    | nil =>
      show pySplitAux (pyJoinSpace [t]) [] = [t]
      have : pyJoinSpace [t] = t ++ [] := by simp [pyJoinSpace]
      rw [this, pySplitAux_append_nospace t [] [] hns]
      rw [List.append_nil, pySplitAux_nil_acc t.reverse (by simpa using hne)]
      simp
    | cons u us =>
      show pySplitAux (t ++ 32 :: pyJoinSpace (u :: us)) [] = t :: u :: us
      rw [pySplitAux_append_nospace t _ [] hns, List.append_nil]
      rw [pySplitAux_space_cons 32 (by decide) _ t.reverse (by simpa using hne)]
      rw [List.reverse_reverse]
      rw [ih (fun x hx => h x (by simp [hx]))]

/-- The space-joined tokens start with a non-whitespace code point. -/
theorem pyJoinSpace_head (ts : List (List Nat))
    (h : ∀ t ∈ ts, t ≠ [] ∧ ∀ c ∈ t, pyIsSpace c = false) (hne : ts ≠ []) :
    ∃ c r, pyJoinSpace ts = c :: r ∧ pyIsSpace c = false := by
  cases ts with
  | nil => exact absurd rfl hne
  | cons t ts =>
    obtain ⟨htne, hns⟩ := h t (by simp)
    cases ht : t with
    | nil => exact absurd ht htne
    | cons c r0 =>
      cases ts with
      | nil => exact ⟨c, r0, by simp [pyJoinSpace], hns c (by simp [ht])⟩
      | cons u us =>
        refine ⟨c, r0 ++ 32 :: pyJoinSpace (u :: us), ?_, hns c (by simp [ht])⟩
        simp [pyJoinSpace]

/-- The space-joined tokens end with a non-whitespace code point. -/
theorem pyJoinSpace_reverse_head (ts : List (List Nat))
    (h : ∀ t ∈ ts, t ≠ [] ∧ ∀ c ∈ t, pyIsSpace c = false) (hne : ts ≠ []) :
    ∃ c r, (pyJoinSpace ts).reverse = c :: r ∧ pyIsSpace c = false := by
  induction ts with
  | nil => exact absurd rfl hne
  | cons t ts ih =>
    obtain ⟨htne, hns⟩ := h t (by simp)
    cases ts with
    | nil =>
      cases ht : t.reverse with
      | nil => exact absurd (by simpa using ht) htne
      | cons c r0 =>
        refine ⟨c, r0, by simp [pyJoinSpace, ht], ?_⟩
        have : c ∈ t := List.mem_reverse.mp (by simp [ht])
        exact hns c this
    | cons u us =>
      obtain ⟨c, r0, hr, hc⟩ := ih (fun x hx => h x (by simp [hx])) (by simp)
      refine ⟨c, r0 ++ 32 :: t.reverse, ?_, hc⟩
      show (t ++ 32 :: pyJoinSpace (u :: us)).reverse = c :: (r0 ++ 32 :: t.reverse)
      rw [List.reverse_append, List.reverse_cons, hr]
      simp

/-- Stripping the space-joined tokens is a no-op. -/
theorem pyStrip_pyJoinSpace (ts : List (List Nat))
    (h : ∀ t ∈ ts, t ≠ [] ∧ ∀ c ∈ t, pyIsSpace c = false) :
    pyStrip (pyJoinSpace ts) = pyJoinSpace ts := by
  cases ts with
  | nil => simp [pyJoinSpace, pyStrip]
  | cons t ts =>
    obtain ⟨c1, r1, hj, hc1⟩ := pyJoinSpace_head (t :: ts) h (by simp)
    obtain ⟨c2, r2, hr, hc2⟩ := pyJoinSpace_reverse_head (t :: ts) h (by simp)
    unfold pyStrip
    rw [hj, List.dropWhile_cons, hc1]
    simp only [Bool.false_eq_true, if_false]
    rw [← hj, hr, List.dropWhile_cons, hc2]
    simp only [Bool.false_eq_true, if_false]
    rw [← hr, List.reverse_reverse]

/-- Lowering commutes with the space join (space is not a letter). -/
theorem pyLower_pyJoinSpace (ts : List (List Nat)) :
    pyLower (pyJoinSpace ts) = pyJoinSpace (ts.map pyLower) := by
  induction ts with
  | nil => rfl
  | cons t ts ih =>
    cases ts with
    | nil => rfl
    | cons u us =>
      show pyLower (t ++ 32 :: pyJoinSpace (u :: us)) =
        pyLower t ++ 32 :: pyJoinSpace ((u :: us).map pyLower)
      rw [← ih]
      simp [pyLower]
      decide

/-- Lowered tokens stay nonempty and whitespace-free. -/
theorem lowered_tokens (ts : List (List Nat))
    (h : ∀ t ∈ ts, t ≠ [] ∧ ∀ c ∈ t, pyIsSpace c = false) :
    ∀ t ∈ ts.map pyLower, t ≠ [] ∧ ∀ c ∈ t, pyIsSpace c = false := by
  intro t ht
  obtain ⟨t0, ht0, rfl⟩ := List.mem_map.mp ht
  obtain ⟨hne, hns⟩ := h t0 ht0
  refine ⟨by simpa [pyLower] using hne, ?_⟩
  intro c hc
  obtain ⟨c0, hc0, rfl⟩ := List.mem_map.mp hc
  rw [pyIsSpace_pyLowerChar]
  exact hns c0 hc0

/-- `_norm_name` as the space join of the lowered tokens. -/
theorem pyNormName_eq_join (s : PyStr) :
    pyNormName s = pyJoinSpace ((pySplit (pyStrip s)).map pyLower) := by
  unfold pyNormName
  rw [pyLower_pyJoinSpace]

/-! ## Lemmas about the code-point lexicographic order. -/

theorem pyStrLe_cons_iff (x y : Nat) (s t : PyStr) :
    pyStrLe (x :: s) (y :: t) = true ↔ (x < y ∨ (x = y ∧ pyStrLe s t = true)) := by
  show (if x < y then true else if y < x then false else pyStrLe s t) = true ↔ _
  split_ifs with h1 h2
  · simp [h1]
  · simp only [Bool.false_eq_true, false_iff]
    rintro (h | ⟨rfl, _⟩)
    · exact h1 h
    · exact Nat.lt_irrefl x h2
  · have hxy : x = y := by omega
    subst hxy
    simp [Nat.lt_irrefl]

theorem pyStrLe_total : ∀ (a b : PyStr), pyStrLe a b = true ∨ pyStrLe b a = true := by
  intro a
  induction a with
  | nil => intro b; exact Or.inl rfl
  | cons x s ih =>
    intro b
    cases b with
    | nil => exact Or.inr rfl
    | cons y t =>
      rw [pyStrLe_cons_iff, pyStrLe_cons_iff]
      rcases Nat.lt_trichotomy x y with h | h | h
      · exact Or.inl (Or.inl h)
      · subst h
        rcases ih t with h2 | h2
        · exact Or.inl (Or.inr ⟨rfl, h2⟩)
        · exact Or.inr (Or.inr ⟨rfl, h2⟩)
      · exact Or.inr (Or.inl h)

theorem pyStrLe_trans : ∀ (a b c : PyStr),
    pyStrLe a b = true → pyStrLe b c = true → pyStrLe a c = true := by
  intro a
  induction a with
  | nil => intro b c _ _; rfl
  | cons x s ih =>
    intro b c hab hbc
    cases b with
    | nil => simp [pyStrLe] at hab
    | cons y t =>
      cases c with
      | nil => simp [pyStrLe] at hbc
      | cons z u =>
        rw [pyStrLe_cons_iff] at hab hbc ⊢
        rcases hab with h1 | ⟨rfl, h1⟩
        · rcases hbc with h2 | ⟨rfl, h2⟩
          · exact Or.inl (Nat.lt_trans h1 h2)
          · exact Or.inl h1
        · rcases hbc with h2 | ⟨rfl, h2⟩
          · exact Or.inl h2
          · exact Or.inr ⟨rfl, ih t u h1 h2⟩

instance : IsTotal PyStr pyStrGeRel := ⟨fun a b => pyStrLe_total b a⟩

instance : IsTrans PyStr pyStrGeRel := ⟨fun _ b _ hab hbc => pyStrLe_trans _ b _ hbc hab⟩

/-- `_norm_name` is idempotent. -/
theorem pyNormName_idem (s : PyStr) : pyNormName (pyNormName s) = pyNormName s := by
  have hts := pySplit_tokens (pyStrip s)
  have hus := lowered_tokens (pySplit (pyStrip s)) hts
  rw [pyNormName_eq_join s]
  rw [pyNormName_eq_join (pyJoinSpace ((pySplit (pyStrip s)).map pyLower))]
  rw [pyStrip_pyJoinSpace _ hus]
  rw [pySplit_pyJoinSpace _ hus]
  congr 1
  rw [List.map_map]
  apply List.map_congr_left
  intro t _
  exact pyLower_idem t

/-! ## Lemmas about the History Aggregator. -/

theorem hgMatch_eq_true_iff (w : Workout) (r : Nat) (d e : PyStr) :
    hgMatch w r d e = true ↔
      ∃ rid, w.routine_id = some rid ∧ rid ≠ 0 ∧ r = rid ∧ d = dayKey w ∧ e = w.exercise_name := by
  unfold hgMatch
  cases hrid : w.routine_id <;> simp [hrid]

/-- One loop step appends `w` to exactly the bucket it matches. -/
theorem hgStep_apply (g : Nat → PyStr → PyStr → List Workout) (w : Workout)
    (r : Nat) (d e : PyStr) :
    hgStep g w r d e = g r d e ++ (if hgMatch w r d e then [w] else []) := by
  unfold hgStep hgMatch
  cases hrid : w.routine_id with
  | none => simp
  | some rid =>
    by_cases h0 : rid ≠ 0
    · by_cases hm : r = rid ∧ d = dayKey w ∧ e = w.exercise_name
      · simp [h0, hm]
      · simp [h0, hm]
    · simp [h0]

/-- Each bucket of the grouped view is the in-order sublist of rows whose
keys match it. -/
theorem historyGroup_eq_filter (ws : List Workout) (r : Nat) (d e : PyStr) :
    historyGroup ws r d e = ws.filter (fun w => hgMatch w r d e) := by
  unfold historyGroup
  suffices h : ∀ (g : Nat → PyStr → PyStr → List Workout),
      (ws.foldl hgStep g) r d e = g r d e ++ ws.filter (fun w => hgMatch w r d e) by
    simpa using h (fun _ _ _ => [])
  induction ws with
  | nil => intro g; simp
  | cons w ws ih =>
    intro g
    rw [List.foldl_cons, ih, List.filter_cons, hgStep_apply]
    cases hp : hgMatch w r d e <;> simp

/-- A row with a nonzero routine id lands in the bucket of its routine, its
calendar day and its exercise name. -/
theorem historyGroup_mem (ws : List Workout) (w : Workout) (rid : Nat)
    (hw : w ∈ ws) (hr : w.routine_id = some rid) (h0 : rid ≠ 0) :
    w ∈ historyGroup ws rid (dayKey w) w.exercise_name := by
  rw [historyGroup_eq_filter]
  refine List.mem_filter.mpr ⟨hw, ?_⟩
  simp [hgMatch, hr, h0]

/-- A row without a routine id is in no bucket of the grouped view. -/
theorem historyGroup_none (ws : List Workout) (w : Workout) (hr : w.routine_id = none) :
    ∀ (r : Nat) (d e : PyStr), w ∉ historyGroup ws r d e := by
  intro r d e hmem
  rw [historyGroup_eq_filter] at hmem
  have h2 := (List.mem_filter.mp hmem).2
  simp [hgMatch, hr] at h2

/-- The date buckets of a routine are displayed in descending code-point
order of the day string. -/
theorem displayedDates_sorted (ws : List Workout) (rid : Nat) :
    List.Sorted pyStrGeRel (displayedDates ws rid) :=
  List.sorted_insertionSort pyStrGeRel (routineDateKeys ws rid)

/-- The displayed dates of a routine are exactly the day keys of its rows. -/
theorem displayedDates_mem (ws : List Workout) (rid : Nat) (d : PyStr) :
    d ∈ displayedDates ws rid ↔
      ∃ w ∈ ws, (truthyRid w && w.routine_id == some rid) = true ∧ dayKey w = d := by
  unfold displayedDates routineDateKeys
  rw [List.mem_insertionSort, List.mem_dedup, List.mem_map]
  constructor
  · rintro ⟨w, hw, rfl⟩
    exact ⟨w, (List.mem_filter.mp hw).1, (List.mem_filter.mp hw).2, rfl⟩
  · rintro ⟨w, hw, hp, rfl⟩
    exact ⟨w, List.mem_filter.mpr ⟨hw, hp⟩, rfl⟩

/-! ## Lemmas about the Workout Logger fan-out. -/

theorem okRows_append (ok : Nat → Bool) (now user : PyStr) :
    ∀ (l1 l2 : List (SessionEntry × SessionSet)) (idx nid : Nat),
    okRows ok now user (l1 ++ l2) idx nid =
      okRows ok now user l1 idx nid ++
        okRows ok now user l2 (idx + l1.length)
          (nid + (okRows ok now user l1 idx nid).length) := by
  intro l1
  induction l1 with
  | nil => intro l2 idx nid; simp [okRows]
  | cons p l1 ih =>
    intro l2 idx nid
    obtain ⟨e, s⟩ := p
    cases hok : ok idx with
    | true =>
      simp only [List.cons_append, okRows, hok, if_true, List.append_eq]
      rw [ih]
      simp only [List.length_cons, List.cons_append, List.cons.injEq, true_and]
      congr 2 <;> omega
    | false =>
      simp only [List.cons_append, okRows, hok, Bool.false_eq_true, if_false, List.append_eq]
      rw [ih]
      congr 2
      simp
      omega

/-- One entry's loop of add_workout calls appends exactly the rows of its
successful inserts, counts them, and advances the attempt index by the
number of its sets. -/
theorem log_entry_sets_spec (ok : Nat → Bool) (now user : PyStr) (e : SessionEntry) :
    ∀ (sets : List SessionSet) (st : DBState) (idx cnt : Nat),
    log_entry_sets ok now user e sets st idx cnt =
      (⟨st.routines, st.routine_exercises,
        st.workouts ++ okRows ok now user (sets.map (fun s => (e, s))) idx st.next_id,
        st.next_id + (okRows ok now user (sets.map (fun s => (e, s))) idx st.next_id).length⟩,
       idx + sets.length,
       cnt + (okRows ok now user (sets.map (fun s => (e, s))) idx st.next_id).length) := by
  intro sets
  induction sets with
  | nil => intro st idx cnt; simp [log_entry_sets, okRows]
  | cons s rest ih =>
    intro st idx cnt
    cases hok : ok idx with
    | true =>
      simp only [log_entry_sets, add_workout, hok, if_true, List.map_cons, okRows]
      rw [ih]
      simp only [Prod.mk.injEq, DBState.mk.injEq, List.length_cons, sessionRow,
        List.append_assoc, List.singleton_append, eq_self_iff_true, true_and, and_true]
      omega
    | false =>
      simp only [log_entry_sets, add_workout, hok, Bool.false_eq_true, if_false, List.map_cons,
        okRows]
      rw [ih]
      simp only [Prod.mk.injEq, List.length_cons, eq_self_iff_true, true_and, and_true]
      omega

/-- The whole session loop appends exactly the rows of the successful
inserts over the flattened attempts and counts them. -/
theorem log_session_aux_spec (ok : Nat → Bool) (now user : PyStr) :
    ∀ (entries : List SessionEntry) (st : DBState) (idx cnt : Nat),
    log_session_aux ok now user entries st idx cnt =
      (⟨st.routines, st.routine_exercises,
        st.workouts ++ okRows ok now user (sessionAttempts entries) idx st.next_id,
        st.next_id + (okRows ok now user (sessionAttempts entries) idx st.next_id).length⟩,
       idx + (sessionAttempts entries).length,
       cnt + (okRows ok now user (sessionAttempts entries) idx st.next_id).length) := by
  intro entries
  induction entries with
  | nil => intro st idx cnt; simp [log_session_aux, sessionAttempts, okRows]
  | cons e es ih =>
    intro st idx cnt
    simp only [log_session_aux, sessionAttempts]
    rw [log_entry_sets_spec, ih]
    rw [okRows_append]
    simp only [Prod.mk.injEq, DBState.mk.injEq, List.length_append, List.length_map,
      List.append_assoc, eq_self_iff_true, true_and, and_true]
    omega

/-- The Log This Workout handler in closed form: the new state appends the
successful rows, the reported set count is their number, the reported
exercise count is the number of entries. -/
theorem log_session_spec (st : DBState) (ok : Nat → Bool) (now user : PyStr)
    (entries : List SessionEntry) :
    log_session st ok now user entries =
      (⟨st.routines, st.routine_exercises,
        st.workouts ++ okRows ok now user (sessionAttempts entries) 0 st.next_id,
        st.next_id + (okRows ok now user (sessionAttempts entries) 0 st.next_id).length⟩,
       (okRows ok now user (sessionAttempts entries) 0 st.next_id).length,
       entries.length) := by
  unfold log_session
  rw [log_session_aux_spec]
  simp

/-- The number of persisted rows is the number of attempt indices the
oracle lets succeed. -/
theorem okRows_length (ok : Nat → Bool) (now user : PyStr) :
    ∀ (attempts : List (SessionEntry × SessionSet)) (idx nid : Nat),
    (okRows ok now user attempts idx nid).length =
      ((List.range' idx attempts.length).filter ok).length := by
  intro attempts
  induction attempts with
  | nil => intro idx nid; simp [okRows]
  | cons p rest ih =>
    intro idx nid
    obtain ⟨e, s⟩ := p
    rw [List.length_cons, List.range'_succ, List.filter_cons]
    cases hok : ok idx with
    | true => simp only [okRows, hok, if_true, List.length_cons, ih]
    | false => simp only [okRows, hok, Bool.false_eq_true, if_false, ih]

/-- With an always-succeeding oracle every attempt persists. -/
theorem okRows_length_all_ok (now user : PyStr) :
    ∀ (attempts : List (SessionEntry × SessionSet)) (idx nid : Nat),
    (okRows (fun _ => true) now user attempts idx nid).length = attempts.length := by
  intro attempts
  induction attempts with
  | nil => intro idx nid; rfl
  | cons p rest ih =>
    intro idx nid
    obtain ⟨e, s⟩ := p
    simp only [okRows, if_true, List.length_cons, ih]

/-- One attempt per set of every entry. -/
theorem sessionAttempts_length (entries : List SessionEntry) :
    (sessionAttempts entries).length = (entries.map (fun e => e.sets.length)).sum := by
  induction entries with
  | nil => rfl
  | cons e es ih => simp [sessionAttempts, ih]

/-- The attempts are exactly the (entry, set) pairs of the session. -/
theorem sessionAttempts_mem (entries : List SessionEntry) (e : SessionEntry) (s : SessionSet) :
    (e, s) ∈ sessionAttempts entries ↔ e ∈ entries ∧ s ∈ e.sets := by
  induction entries with
  | nil => simp [sessionAttempts]
  | cons e1 es ih =>
    simp only [sessionAttempts, List.mem_append, List.mem_map, ih, List.mem_cons]
    constructor
    · rintro (⟨s1, hs1, heq⟩ | ⟨he, hs⟩)
      · injection heq with h1 h2
        subst h1
        subst h2
        exact ⟨Or.inl rfl, hs1⟩
      · exact ⟨Or.inr he, hs⟩
    · rintro ⟨he | he, hs⟩
      · subst he
        exact Or.inl ⟨s, hs, rfl⟩
      · exact Or.inr ⟨he, hs⟩

/-- Every persisted fan-out row is the row of one of the session's
(entry, set) pairs. -/
theorem okRows_mem_rows (ok : Nat → Bool) (now user : PyStr) :
    ∀ (attempts : List (SessionEntry × SessionSet)) (idx nid : Nat) (w : Workout),
    w ∈ okRows ok now user attempts idx nid →
      ∃ e s, (e, s) ∈ attempts ∧ w = sessionRow now user e s w.id := by
  intro attempts
  induction attempts with
  | nil => intro idx nid w hw; simp [okRows] at hw
  | cons p rest ih =>
    intro idx nid w hw
    obtain ⟨e, s⟩ := p
    cases hok : ok idx with
    | true =>
      rw [okRows, if_pos hok] at hw
      rcases List.mem_cons.mp hw with hw | hw
      · subst hw
        exact ⟨e, s, by simp, rfl⟩
      · obtain ⟨e1, s1, hmem, heq⟩ := ih (idx + 1) (nid + 1) w hw
        exact ⟨e1, s1, by simp [hmem], heq⟩
    | false =>
      rw [okRows, if_neg (by simp [hok])] at hw
      obtain ⟨e1, s1, hmem, heq⟩ := ih (idx + 1) nid w hw
      exact ⟨e1, s1, by simp [hmem], heq⟩

/-- Under an always-succeeding oracle, every (entry, set) pair of the
session persists its row. -/
theorem okRows_all_ok_exists (now user : PyStr) :
    ∀ (attempts : List (SessionEntry × SessionSet)) (idx nid : Nat)
      (e : SessionEntry) (s : SessionSet), (e, s) ∈ attempts →
      ∃ wid, sessionRow now user e s wid ∈ okRows (fun _ => true) now user attempts idx nid := by
  intro attempts
  induction attempts with
  | nil => intro idx nid e s h; simp at h
  | cons p rest ih =>
    intro idx nid e s h
    obtain ⟨e1, s1⟩ := p
    rcases List.mem_cons.mp h with h | h
    · injection h with h1 h2
      subst h1
      subst h2
      exact ⟨nid, by simp [okRows]⟩
    · obtain ⟨wid, hmem⟩ := ih (idx + 1) (nid + 1) e s h
      exact ⟨wid, by simp [okRows, hmem]⟩

/-- No fan-out row carries a routine_exercise_id. -/
theorem okRows_rex_none (ok : Nat → Bool) (now user : PyStr)
    (attempts : List (SessionEntry × SessionSet)) (idx nid : Nat) (w : Workout)
    (hw : w ∈ okRows ok now user attempts idx nid) : w.routine_exercise_id = none := by
  obtain ⟨e, s, _, heq⟩ := okRows_mem_rows ok now user attempts idx nid w hw
  rw [heq]
  rfl

/-! ## Lemmas about the Statistics Aggregator. -/

/-- The pandas NaN-skipping total equals the coerce-missing-to-zero total. -/
theorem statTotalReps_eq_coerce (ws : List Workout) :
    statTotalReps ws = coerceTotalReps ws := by
  induction ws with
  | nil => rfl
  | cons w ws ih =>
    cases hr : w.reps with
    | none =>
      simp [statTotalReps, coerceTotalReps, repsTerm, hr, List.filterMap_cons] at ih ⊢
      exact ih
    | some r =>
      simp [statTotalReps, coerceTotalReps, repsTerm, hr, List.filterMap_cons] at ih ⊢
      omega

/-- Same for the training volume. -/
theorem statTotalVolume_eq_coerce (ws : List Workout) :
    statTotalVolume ws = coerceTotalVolume ws := by
  induction ws with
  | nil => rfl
  | cons w ws ih =>
    cases hr : w.reps with
    | none =>
      simp [statTotalVolume, coerceTotalVolume, volumeTerm, hr, List.filterMap_cons] at ih ⊢
      exact ih
    | some r =>
      cases hwt : w.weight with
      | none =>
        simp [statTotalVolume, coerceTotalVolume, volumeTerm, hr, hwt, List.filterMap_cons]
          at ih ⊢
        exact ih
      | some wt =>
        simp [statTotalVolume, coerceTotalVolume, volumeTerm, hr, hwt, List.filterMap_cons]
          at ih ⊢
        rw [ih]

/-- A reps-null row adds nothing to the Total Reps metric. -/
theorem statTotalReps_middle_none (l1 l2 : List Workout) (w : Workout) (hw : w.reps = none) :
    statTotalReps (l1 ++ w :: l2) = statTotalReps (l1 ++ l2) := by
  simp [statTotalReps, List.map_append, List.filterMap_append, List.filterMap_cons,
    repsTerm, hw]

/-- A reps-null row adds nothing to the Total Volume metric. -/
theorem statTotalVolume_middle_none (l1 l2 : List Workout) (w : Workout) (hw : w.reps = none) :
    statTotalVolume (l1 ++ w :: l2) = statTotalVolume (l1 ++ l2) := by
  simp [statTotalVolume, List.map_append, List.filterMap_append, List.filterMap_cons,
    volumeTerm, hw]

/-- But it still counts in the Total Workouts and Total Sets metrics. -/
theorem statTotals_middle_counts (l1 l2 : List Workout) (w : Workout) :
    statTotalWorkouts (l1 ++ w :: l2) = statTotalWorkouts (l1 ++ l2) + 1 ∧
    statTotalSets (l1 ++ w :: l2) = statTotalSets (l1 ++ l2) + w.sets := by
  constructor
  · simp [statTotalWorkouts]
    omega
  · simp [statTotalSets, List.map_append, List.sum_append]
    ring

/-! ## Lemmas about the Routine/Exercise Manager. -/

/-- Membership in a successful get_user_routines read. -/
theorem mem_get_user_routines (st : DBState) (u : PyStr) (r : Routine) :
    r ∈ get_user_routines st true u ↔ r ∈ st.routines ∧ r.user_id = u := by
  unfold get_user_routines
  simp [List.mem_insertionSort, List.mem_filter]

/-- The day-already-scheduled check succeeds exactly when the user has a
routine on that weekday. -/
theorem day_check_iff (st : DBState) (u day : PyStr) :
    day_already_has_routine (get_user_routines st true u) day = true ↔
      ∃ r ∈ st.routines, r.user_id = u ∧ r.day_name = day := by
  unfold day_already_has_routine
  rw [List.any_eq_true]
  constructor
  · rintro ⟨r, hr, hday⟩
    obtain ⟨hmem, huser⟩ := (mem_get_user_routines st u r).mp hr
    exact ⟨r, hmem, huser, by simpa using hday⟩
  · rintro ⟨r, hmem, huser, hday⟩
    exact ⟨r, (mem_get_user_routines st u r).mpr ⟨hmem, huser⟩, by simpa using hday⟩

/-! ## Claim theorems. -/

/-- C5: `_norm_name` collapses internal whitespace runs to single spaces,
trims leading/trailing whitespace and lower-cases, and it is idempotent:
normalize(normalize(s)) = normalize(s) for every string; in particular
normalize("Bench   Press") = normalize("bench press") = "bench press". -/
theorem C5_normalize_idempotent :
    (∀ s : PyStr, pyNormName (pyNormName s) = pyNormName s) ∧
    pyNormName (pystr "Bench   Press") = pystr "bench press" ∧
    pyNormName (pystr "bench press") = pystr "bench press" ∧
    pyNormName (pystr "  BENCH \t  PRESS  ") = pystr "bench press" :=
  ⟨pyNormName_idem, by decide, by decide, by decide⟩

/-- C1: if the user already has a routine on the chosen weekday, the
create-routine submit handler reports the day-already-scheduled error and
persists nothing (state unchanged); consequently the handler preserves the
at-most-one-routine-per-weekday-per-user invariant, and so do all the
other operations (none of which inserts a routine row): the session
logger and add_routine_exercise leave the routines table unchanged and
delete_routine only removes rows.  The render-time routines read is
assumed to succeed (`fetchOk := true`). -/
theorem C1_one_routine_per_day :
    (∀ (st : DBState) (insOk : Bool) (user name day desc : PyStr),
      name ≠ [] →
      (∃ r ∈ st.routines, r.user_id = user ∧ r.day_name = day) →
      create_routine_form st true insOk user name day desc =
        (st, CreateRoutineResult.dayAlreadyScheduled)) ∧
    (∀ (st : DBState) (insOk : Bool) (user name day desc : PyStr),
      RoutineDayInv st →
      RoutineDayInv (create_routine_form st true insOk user name day desc).1) ∧
    (∀ (st : DBState) (ok : Nat → Bool) (now user : PyStr) (entries : List SessionEntry),
      (log_session st ok now user entries).1.routines = st.routines) ∧
    (∀ (st : DBState) (selOk insOk : Bool) (rid : Nat) (en tm : PyStr) (sets ord : Int),
      (add_routine_exercise st selOk insOk rid en tm sets ord).1.routines = st.routines) ∧
    (∀ (st : DBState) (ok : Bool) (rid : Nat),
      RoutineDayInv st → RoutineDayInv (delete_routine st ok rid).1) := by
  refine ⟨?_, ?_, ?_, ?_, ?_⟩
  · intro st insOk user name day desc hname hex
    unfold create_routine_form
    rw [if_neg (by simpa using hname)]
    rw [if_pos ((day_check_iff st user day).mpr hex)]
  · intro st insOk user name day desc hinv
    unfold create_routine_form
    by_cases hname : (name == []) = true
    · rw [if_pos hname]; exact hinv
    · rw [if_neg hname]
      by_cases hday : day_already_has_routine (get_user_routines st true user) day = true
      · rw [if_pos hday]; exact hinv
      · rw [if_neg hday]
        cases insOk with
        | false => exact hinv
        | true =>
          have hno : ∀ r ∈ st.routines, r.user_id = user → r.day_name ≠ day := by
            intro r hr hu hd
            exact hday ((day_check_iff st user day).mpr ⟨r, hr, hu, hd⟩)
          show RoutineDayInv
            ⟨st.routines ++ [⟨st.next_id, user, pyNormName name, day, desc⟩],
             st.routine_exercises, st.workouts, st.next_id + 1⟩
          intro r1 h1 r2 h2 hu hd
          rcases List.mem_append.mp h1 with h1 | h1 <;>
            rcases List.mem_append.mp h2 with h2 | h2
          · exact hinv r1 h1 r2 h2 hu hd
          · rw [List.mem_singleton] at h2
            subst h2
            exact absurd hd (hno r1 h1 (by simpa using hu))
          · rw [List.mem_singleton] at h1
            subst h1
            exact absurd hd.symm (hno r2 h2 (by simpa using hu.symm))
          · rw [List.mem_singleton] at h1 h2
            rw [h1, h2]
  · intro st ok now user entries
    rw [log_session_spec]
  · intro st selOk insOk rid en tm sets ord
    unfold add_routine_exercise
    split
    · split
      · rfl
      · split
        · rfl
        · rfl
    · rfl
  · intro st ok rid hinv
    cases ok with
    | false => exact hinv
    | true =>
      intro r1 h1 r2 h2 hu hd
      exact hinv r1 (List.mem_filter.mp h1).1 r2 (List.mem_filter.mp h2).1 hu hd

/-- Concrete instance of C1: a user with a Monday routine cannot create a
second Monday routine, and the invariant survives the attempt. -/
theorem C1_one_routine_per_day_witness :
    create_routine_form
        ⟨[⟨1, pystr "alice", pystr "chest day", pystr "Monday", pystr ""⟩], [], [], 2⟩
        true true (pystr "alice") (pystr "Back Day") (pystr "Monday") (pystr "") =
      (⟨[⟨1, pystr "alice", pystr "chest day", pystr "Monday", pystr ""⟩], [], [], 2⟩,
       CreateRoutineResult.dayAlreadyScheduled) ∧
    RoutineDayInv
      (create_routine_form
        ⟨[⟨1, pystr "alice", pystr "chest day", pystr "Monday", pystr ""⟩], [], [], 2⟩
        true true (pystr "alice") (pystr "Back Day") (pystr "Monday") (pystr "")).1 :=
  ⟨C1_one_routine_per_day.1 _ true (pystr "alice") (pystr "Back Day") (pystr "Monday")
      (pystr "") (by decide)
      ⟨⟨1, pystr "alice", pystr "chest day", pystr "Monday", pystr ""⟩, by decide, by decide⟩,
   C1_one_routine_per_day.2.1 _ true (pystr "alice") (pystr "Back Day") (pystr "Monday")
      (pystr "") (by decide)⟩

/-- C2: add_routine_exercise is idempotent on the normalized exercise name.
On a state whose stored exercise names are normalized (the invariant the
operation itself maintains, third conjunct), if the normalized key of the
new name already occurs among the routine's exercises — a case- and
whitespace-insensitive match — the call returns the existing row's id and
leaves the state (hence the routine's exercise count) unchanged; if the
key is absent it inserts exactly one row and returns the new id. -/
theorem C2_add_exercise_idempotent :
    (∀ (st : DBState) (insOk : Bool) (rid : Nat) (name muscle : PyStr) (sets ord : Int),
      (∀ e ∈ st.routine_exercises, pyNormName e.exercise_name = e.exercise_name) →
      (∃ e ∈ st.routine_exercises, e.routine_id = rid ∧
        pyNormName e.exercise_name = pyNormName name) →
      ∃ e ∈ st.routine_exercises, e.routine_id = rid ∧ e.exercise_name = pyNormName name ∧
        add_routine_exercise st true insOk rid name muscle sets ord = (st, some e.id)) ∧
    (∀ (st : DBState) (rid : Nat) (name muscle : PyStr) (sets ord : Int),
      (∀ e ∈ st.routine_exercises, e.routine_id = rid →
        pyNormName e.exercise_name ≠ pyNormName name) →
      add_routine_exercise st true true rid name muscle sets ord =
        (⟨st.routines,
          st.routine_exercises ++ [⟨st.next_id, rid, pyNormName name, muscle, sets, ord⟩],
          st.workouts, st.next_id + 1⟩, some st.next_id)) ∧
    (∀ (st : DBState) (selOk insOk : Bool) (rid : Nat) (name muscle : PyStr) (sets ord : Int),
      (∀ e ∈ st.routine_exercises, pyNormName e.exercise_name = e.exercise_name) →
      ∀ e ∈ (add_routine_exercise st selOk insOk rid name muscle sets ord).1.routine_exercises,
        pyNormName e.exercise_name = e.exercise_name) := by
  refine ⟨?_, ?_, ?_⟩
  · intro st insOk rid name muscle sets ord hnorm hex
    obtain ⟨e0, he0, hrid0, hkey0⟩ := hex
    have hstored : e0.exercise_name = pyNormName name := by
      rw [← hnorm e0 he0, hkey0]
    have hmem : e0 ∈ st.routine_exercises.filter
        (fun e => e.routine_id == rid && e.exercise_name == pyNormName name) :=
      List.mem_filter.mpr ⟨he0, by simp [hrid0, hstored]⟩
    cases hl : st.routine_exercises.filter
        (fun e => e.routine_id == rid && e.exercise_name == pyNormName name) with
    | nil => rw [hl] at hmem; simp at hmem
    | cons ehead tail =>
      have hhead : ehead ∈ st.routine_exercises.filter
          (fun e => e.routine_id == rid && e.exercise_name == pyNormName name) := by
        rw [hl]; simp
      obtain ⟨hh1, hh2⟩ := List.mem_filter.mp hhead
      simp only [Bool.and_eq_true, beq_iff_eq] at hh2
      refine ⟨ehead, hh1, hh2.1, hh2.2, ?_⟩
      unfold add_routine_exercise
      rw [if_pos rfl, hl]
  · intro st rid name muscle sets ord habsent
    have hfilter : st.routine_exercises.filter
        (fun e => e.routine_id == rid && e.exercise_name == pyNormName name) = [] := by
      rw [List.filter_eq_nil_iff]
      intro e he hpe
      simp only [Bool.and_eq_true, beq_iff_eq] at hpe
      exact habsent e he hpe.1 (by rw [hpe.2, pyNormName_idem])
    unfold add_routine_exercise
    rw [if_pos rfl, hfilter, if_pos rfl]
  · intro st selOk insOk rid name muscle sets ord hnorm
    unfold add_routine_exercise
    split
    · split
      · exact hnorm
      · split
        · intro e he
          rcases List.mem_append.mp he with he | he
          · exact hnorm e he
          · rw [List.mem_singleton] at he
            subst he
            exact pyNormName_idem name
        · exact hnorm
    · exact hnorm

/-- Concrete instance of C2: adding "  SQUAT " to a routine already holding
normalized key "squat" returns the existing id without inserting. -/
theorem C2_add_exercise_idempotent_witness :
    ∃ e ∈ (⟨[], [⟨5, 1, pystr "squat", pystr "Legs", 3, 1⟩], [], 6⟩ : DBState).routine_exercises,
      e.routine_id = 1 ∧ e.exercise_name = pyNormName (pystr "  SQUAT ") ∧
      add_routine_exercise ⟨[], [⟨5, 1, pystr "squat", pystr "Legs", 3, 1⟩], [], 6⟩
          true true 1 (pystr "  SQUAT ") (pystr "Legs") 3 1 =
        (⟨[], [⟨5, 1, pystr "squat", pystr "Legs", 3, 1⟩], [], 6⟩, some e.id) :=
  C2_add_exercise_idempotent.1 ⟨[], [⟨5, 1, pystr "squat", pystr "Legs", 3, 1⟩], [], 6⟩
    true 1 (pystr "  SQUAT ") (pystr "Legs") 3 1 (by decide)
    ⟨⟨5, 1, pystr "squat", pystr "Legs", 3, 1⟩, by decide, by decide, by decide⟩

/-- C3: with all storage inserts succeeding, the Log This Workout handler
persists exactly one Workout row per completed set — Σ S_i rows for E
entries with S_i sets each — appends them to the workouts table, and
reports (Σ S_i, E), the pair rendered as "Σ sets from E exercises".
Every persisted row has sets = 1 and carries its entry's (normalized)
exercise name, muscle and notes and its set's reps, weight and effort
(the shape of `sessionRow`), and every (entry, set) pair persists a row. -/
theorem C3_session_fanout :
    (∀ (st : DBState) (now user : PyStr) (entries : List SessionEntry),
      log_session st (fun _ => true) now user entries =
        (⟨st.routines, st.routine_exercises,
          st.workouts ++ okRows (fun _ => true) now user (sessionAttempts entries) 0 st.next_id,
          st.next_id + (entries.map (fun e => e.sets.length)).sum⟩,
         (entries.map (fun e => e.sets.length)).sum,
         entries.length)) ∧
    (∀ (now user : PyStr) (entries : List SessionEntry) (nid : Nat) (w : Workout),
      w ∈ okRows (fun _ => true) now user (sessionAttempts entries) 0 nid →
      w.sets = 1 ∧ ∃ e ∈ entries, ∃ s ∈ e.sets, w = sessionRow now user e s w.id) ∧
    (∀ (now user : PyStr) (entries : List SessionEntry) (nid : Nat)
      (e : SessionEntry) (s : SessionSet), e ∈ entries → s ∈ e.sets →
      ∃ wid, sessionRow now user e s wid ∈
        okRows (fun _ => true) now user (sessionAttempts entries) 0 nid) := by
  refine ⟨?_, ?_, ?_⟩
  · intro st now user entries
    rw [log_session_spec, okRows_length_all_ok, sessionAttempts_length]
  · intro now user entries nid w hw
    obtain ⟨e, s, hmem, heq⟩ := okRows_mem_rows (fun _ => true) now user
      (sessionAttempts entries) 0 nid w hw
    obtain ⟨he, hs⟩ := (sessionAttempts_mem entries e s).mp hmem
    exact ⟨by rw [heq]; rfl, e, he, s, hs, heq⟩
  · intro now user entries nid e s he hs
    exact okRows_all_ok_exists now user (sessionAttempts entries) 0 nid e s
      ((sessionAttempts_mem entries e s).mpr ⟨he, hs⟩)

/-- Concrete instance of C3: two exercises with three sets each yield six
rows and the report "6 sets from 2 exercises". -/
theorem C3_session_fanout_witness :
    (log_session ⟨[], [], [], 7⟩ (fun _ => true) (pystr "2024-05-01T10:00:00") (pystr "alice")
        [⟨pystr "squat", pystr "Legs", [⟨10, 60, pystr "Medium"⟩, ⟨10, 60, pystr "Medium"⟩,
            ⟨8, 60, pystr "Hard"⟩], pystr "", 1⟩,
         ⟨pystr "bench press", pystr "Chest", [⟨10, 40, pystr "Medium"⟩, ⟨9, 40, pystr "Medium"⟩,
            ⟨8, 40, pystr "Hard"⟩], pystr "", 1⟩]).2 = (6, 2) ∧
    (∃ wid, sessionRow (pystr "2024-05-01T10:00:00") (pystr "alice")
        ⟨pystr "squat", pystr "Legs", [⟨10, 60, pystr "Medium"⟩, ⟨10, 60, pystr "Medium"⟩,
            ⟨8, 60, pystr "Hard"⟩], pystr "", 1⟩ ⟨10, 60, pystr "Medium"⟩ wid ∈
      okRows (fun _ => true) (pystr "2024-05-01T10:00:00") (pystr "alice")
        (sessionAttempts
          [⟨pystr "squat", pystr "Legs", [⟨10, 60, pystr "Medium"⟩, ⟨10, 60, pystr "Medium"⟩,
              ⟨8, 60, pystr "Hard"⟩], pystr "", 1⟩,
           ⟨pystr "bench press", pystr "Chest", [⟨10, 40, pystr "Medium"⟩, ⟨9, 40, pystr "Medium"⟩,
              ⟨8, 40, pystr "Hard"⟩], pystr "", 1⟩]) 0 7) := by
  constructor
  · rw [C3_session_fanout.1]
    rfl
  · exact C3_session_fanout.2.2 (pystr "2024-05-01T10:00:00") (pystr "alice") _ 7 _
      ⟨10, 60, pystr "Medium"⟩ (by simp) (by simp)

/-- C4: each set insert of a session is independent.  For every failure
oracle `ok` over the insert attempts, the handler never raises (it is a
total function), the persisted rows are exactly the rows of the attempts
whose own insert succeeds — `okRows` walks every attempt, so a failure at
one index does not abort the later ones — and the reported success count
equals both the number of rows actually appended and the number of
succeeding attempt indices. -/
theorem C4_insert_independence :
    ∀ (st : DBState) (ok : Nat → Bool) (now user : PyStr) (entries : List SessionEntry),
      (log_session st ok now user entries).1.workouts =
        st.workouts ++ okRows ok now user (sessionAttempts entries) 0 st.next_id ∧
      (log_session st ok now user entries).2.1 =
        (okRows ok now user (sessionAttempts entries) 0 st.next_id).length ∧
      (log_session st ok now user entries).2.1 =
        ((List.range' 0 (sessionAttempts entries).length).filter ok).length ∧
      (log_session st ok now user entries).2.2 = entries.length := by
  intro st ok now user entries
  rw [log_session_spec]
  exact ⟨rfl, rfl, okRows_length ok now user (sessionAttempts entries) 0 st.next_id, rfl⟩

/-- C10: every Workout row created through the session-logging flow has
routine_exercise_id = null: the handler never passes routine_exercise_id
to add_workout, whose default is None, so a row added by log_session that
was not already stored carries none. -/
theorem C10_routine_exercise_id_null :
    ∀ (st : DBState) (ok : Nat → Bool) (now user : PyStr) (entries : List SessionEntry)
      (w : Workout),
      w ∈ (log_session st ok now user entries).1.workouts → w ∉ st.workouts →
      w.routine_exercise_id = none := by
  intro st ok now user entries w hmem hnot
  rw [log_session_spec] at hmem
  rcases List.mem_append.mp hmem with h | h
  · exact absurd h hnot
  · exact okRows_rex_none ok now user (sessionAttempts entries) 0 st.next_id w h

/-- Concrete instance of C10: the single row logged from a one-set session
carries no routine_exercise_id. -/
theorem C10_routine_exercise_id_null_witness :
    (sessionRow (pystr "2024-05-01T10:00:00") (pystr "alice")
        ⟨pystr "squat", pystr "Legs", [⟨10, 60, pystr "Medium"⟩], pystr "", 1⟩
        ⟨10, 60, pystr "Medium"⟩ 1).routine_exercise_id = none :=
  C10_routine_exercise_id_null ⟨[], [], [], 1⟩ (fun _ => true)
    (pystr "2024-05-01T10:00:00") (pystr "alice")
    [⟨pystr "squat", pystr "Legs", [⟨10, 60, pystr "Medium"⟩], pystr "", 1⟩] _
    (by decide) (by decide)

/-- C6 refutation: a row whose reps field is null is NOT dropped by the
View History loop — with routine id 1 it lands in bucket
grouped[1]["2024-05-01"]["squat"] — and it is NOT ignored by the
statistics totals: it still counts one workout and one set.  This
contradicts the claim that such a row appears in neither view. -/
theorem C6_reps_null_not_filtered_counterexample :
    repsNullRow.reps = none ∧
    historyGroup [repsNullRow] 1 (pystr "2024-05-01") (pystr "squat") = [repsNullRow] ∧
    statTotalWorkouts [repsNullRow] = 1 ∧
    statTotalSets [repsNullRow] = 1 := by
  refine ⟨rfl, ?_, rfl, by decide⟩
  rw [historyGroup_eq_filter]
  decide

/-- C6 as amended: a reps-null (or date-null) row never crashes either
aggregator (both are total functions evaluated here on arbitrary inputs),
and it contributes nothing to the Total Reps and Total Volume statistics;
but it is not filtered out: it appears in the history grouping whenever
its routine id is truthy, and it still counts in the Total Workouts and
Total Sets metrics. -/
theorem C6_reps_null_rows :
    ∀ (l1 l2 : List Workout) (w : Workout), w.reps = none →
      (∀ rid, w.routine_id = some rid → rid ≠ 0 →
        w ∈ historyGroup (l1 ++ w :: l2) rid (dayKey w) w.exercise_name) ∧
      statTotalReps (l1 ++ w :: l2) = statTotalReps (l1 ++ l2) ∧
      statTotalVolume (l1 ++ w :: l2) = statTotalVolume (l1 ++ l2) ∧
      statTotalWorkouts (l1 ++ w :: l2) = statTotalWorkouts (l1 ++ l2) + 1 ∧
      statTotalSets (l1 ++ w :: l2) = statTotalSets (l1 ++ l2) + w.sets := by
  intro l1 l2 w hreps
  refine ⟨?_, statTotalReps_middle_none l1 l2 w hreps,
    statTotalVolume_middle_none l1 l2 w hreps,
    (statTotals_middle_counts l1 l2 w).1, (statTotals_middle_counts l1 l2 w).2⟩
  intro rid hrid h0
  exact historyGroup_mem (l1 ++ w :: l2) w rid (by simp) hrid h0

/-- Concrete instance of the amended C6. -/
theorem C6_reps_null_rows_witness :
    repsNullRow ∈ historyGroup [repsNullRow] 1 (dayKey repsNullRow)
      repsNullRow.exercise_name ∧
    statTotalReps [repsNullRow] = statTotalReps [] ∧
    statTotalVolume [repsNullRow] = statTotalVolume [] ∧
    statTotalWorkouts [repsNullRow] = statTotalWorkouts [] + 1 ∧
    statTotalSets [repsNullRow] = statTotalSets [] + repsNullRow.sets := by
  have h := C6_reps_null_rows [] [] repsNullRow rfl
  exact ⟨h.1 1 rfl (by decide), h.2.1, h.2.2.1, h.2.2.2.1, h.2.2.2.2⟩

/-- C7: history grouping is deterministic and routine-scoped.  Two rows
with the same (truthy) routine id whose timestamps share a calendar day —
equal `str(date)[:10]` keys — land in the same date bucket of that
routine (each under its exercise name); within a routine the date buckets
are displayed sorted descending by the day string; and a row whose
routine id is null is in no bucket of the grouped view. -/
theorem C7_history_grouping_deterministic :
    (∀ (ws : List Workout) (w1 w2 : Workout) (rid : Nat) (day : PyStr),
      w1 ∈ ws → w2 ∈ ws → w1.routine_id = some rid → w2.routine_id = some rid → rid ≠ 0 →
      dayKey w1 = day → dayKey w2 = day →
      w1 ∈ historyGroup ws rid day w1.exercise_name ∧
      w2 ∈ historyGroup ws rid day w2.exercise_name) ∧
    (∀ (ws : List Workout) (rid : Nat), List.Sorted pyStrGeRel (displayedDates ws rid)) ∧
    (∀ (ws : List Workout) (w : Workout), w.routine_id = none →
      ∀ (r : Nat) (d e : PyStr), w ∉ historyGroup ws r d e) := by
  refine ⟨?_, displayedDates_sorted, historyGroup_none⟩
  intro ws w1 w2 rid day h1 h2 hr1 hr2 h0 hd1 hd2
  constructor
  · rw [← hd1]
    exact historyGroup_mem ws w1 rid h1 hr1 h0
  · rw [← hd2]
    exact historyGroup_mem ws w2 rid h2 hr2 h0

/-- Concrete instance of C7: two rows of routine 1 logged at 09:30 and
18:45 of 2024-05-01 both land in the "2024-05-01" bucket, and a row with
a null routine id is in no bucket. -/
theorem C7_history_grouping_deterministic_witness :
    (repsNullRow ∈ historyGroup [repsNullRow, sameDayRow] 1 (pystr "2024-05-01")
        repsNullRow.exercise_name ∧
     sameDayRow ∈ historyGroup [repsNullRow, sameDayRow] 1 (pystr "2024-05-01")
        sameDayRow.exercise_name) ∧
    (⟨9, pystr "alice", some (pystr "2024-05-02T10:00:00"), none, none, pystr "plank",
        pystr "Abs", 1, some 10, some 0, pystr "", pystr "Easy"⟩ : Workout) ∉
      historyGroup [⟨9, pystr "alice", some (pystr "2024-05-02T10:00:00"), none, none,
        pystr "plank", pystr "Abs", 1, some 10, some 0, pystr "", pystr "Easy"⟩] 1
        (pystr "2024-05-02") (pystr "plank") :=
  ⟨C7_history_grouping_deterministic.1 [repsNullRow, sameDayRow] repsNullRow sameDayRow 1
      (pystr "2024-05-01") (by decide) (by decide) (by decide) (by decide) (by decide)
      (by decide) (by decide),
   C7_history_grouping_deterministic.2.2 _ _ (by decide) 1 (pystr "2024-05-02")
      (pystr "plank")⟩

/-- C8 refutation: on the spec's own example rows the total volume
Σ(sets·reps·weight) is 1·10·20 + 1·8·0 = 200, not the claimed 160. -/
theorem C8_volume_example_counterexample :
    statTotalVolume statsExampleRows = 200 ∧ (200 : Rat) ≠ 160 := by
  constructor
  · simp [statTotalVolume, statsExampleRows, volumeTerm, List.filterMap_cons]
    norm_num
  · norm_num

/-- C8 as amended: the Statistics page computes total reps as Σ(sets·reps)
and total volume as Σ(sets·reps·weight) with missing values contributing
zero (the pandas NaN-skipping sums equal the coerce-missing-to-zero
sums), and on the example rows total reps is 18 and total volume is 200
(not 160 as the spec's example says). -/
theorem C8_statistics_totals :
    (∀ ws : List Workout, statTotalReps ws = coerceTotalReps ws) ∧
    (∀ ws : List Workout, statTotalVolume ws = coerceTotalVolume ws) ∧
    statTotalReps statsExampleRows = 18 ∧
    statTotalVolume statsExampleRows = 200 :=
  ⟨statTotalReps_eq_coerce, statTotalVolume_eq_coerce, by decide,
   by simp [statTotalVolume, statsExampleRows, volumeTerm, List.filterMap_cons]; norm_num⟩

/-- C9: every Data Access Layer operation catches the storage failure and
returns its sentinel with the state unchanged — None for create_routine
and add_routine_exercise (whether the select or the subsequent insert
raises), False for add_workout, update_workout, delete_routine and
delete_workout — and every read returns the empty list, never null. -/
theorem C9_failure_sentinels :
    ∀ (st : DBState) (u m ex nm day ds now notes eff : PyStr) (rid wid lim : Nat)
      (sets ord reps : Int) (weight : Rat) (orid orex : Option Nat) (upd : WorkoutUpdates),
      create_routine st false u nm day ds = (st, none) ∧
      add_routine_exercise st false false rid ex m sets ord = (st, none) ∧
      (st.routine_exercises.filter
          (fun e => e.routine_id == rid && e.exercise_name == pyNormName ex) = [] →
        add_routine_exercise st true false rid ex m sets ord = (st, none)) ∧
      add_workout st false now u ex m sets reps weight notes eff orid orex = (st, false) ∧
      update_workout st false wid upd = (st, false) ∧
      delete_routine st false rid = (st, false) ∧
      delete_workout st false wid = (st, false) ∧
      get_user_routines st false u = [] ∧
      get_routine_exercises st false rid = [] ∧
      get_user_workouts st false u lim = [] ∧
      get_workouts_by_muscle st false u m = [] ∧
      get_workouts_by_exercise st false u ex = [] := by
  intro st u m ex nm day ds now notes eff rid wid lim sets ord reps weight orid orex upd
  refine ⟨rfl, rfl, ?_, rfl, rfl, rfl, rfl, rfl, rfl, rfl, rfl, rfl⟩
  intro hfilter
  unfold add_routine_exercise
  rw [if_pos rfl, hfilter]
  rfl

/-- Concrete instance of C9 on a nonempty state. -/
theorem C9_failure_sentinels_witness :
    create_routine ⟨[], [], [], 1⟩ false (pystr "alice") (pystr "Chest Day") (pystr "Monday")
        (pystr "") = (⟨[], [], [], 1⟩, none) ∧
    add_routine_exercise ⟨[], [], [], 1⟩ true false 1 (pystr "squat") (pystr "Legs") 3 1 =
      (⟨[], [], [], 1⟩, none) ∧
    get_user_routines ⟨[], [], [], 1⟩ false (pystr "alice") = [] := by
  have h := C9_failure_sentinels ⟨[], [], [], 1⟩ (pystr "alice") (pystr "Legs") (pystr "squat")
    (pystr "Chest Day") (pystr "Monday") (pystr "") (pystr "now") (pystr "") (pystr "Medium")
    1 1 100 3 1 10 0 none none ⟨none, none, none, none, none⟩
  exact ⟨h.1, h.2.2.1 (by decide), h.2.2.2.2.2.2.2.1⟩
